import Mathlib

/-!
Verification of the Digital Portfolio web application (src/app.py) against its
natural-language specification.  The relevant parts of the program are shallowly
embedded as executable Lean definitions: the projects table is a list of rows,
SQL queries become list operations, and the Streamlit form handlers become pure
functions from form input and table state to new table state plus error lists.
-/

namespace Portfolio

/-! ## Generic string helpers (embedding Python and SQL string primitives) -/

/-- Drops characters satisfying p from both ends of a character list. -/
def stripChars (p : Char → Bool) (cs : List Char) : List Char :=
  ((cs.dropWhile p).reverse.dropWhile p).reverse

/-- Embeds Python str.strip(): removes whitespace from both ends. -/
def pyStrip (s : String) : String :=
  String.mk (stripChars Char.isWhitespace s.data)

/-- Embeds the SQL TRIM(X) function, which removes only space characters
(U+0020) from both ends, not other whitespace. -/
def sqlTrim (s : String) : String :=
  String.mk (stripChars (fun c => c == ' ') s.data)

/-- Embeds Python str.lower() / SQL LOWER() on the ASCII range. -/
def lowerStr (s : String) : String :=
  String.mk (s.data.map Char.toLower)

/-- Embeds Python str.upper() on the ASCII range. -/
def upperStr (s : String) : String :=
  String.mk (s.data.map Char.toUpper)

/-- Embeds SQL COALESCE(col, '') on a nullable text column. -/
def coalesce (s : Option String) : String := s.getD ""

/-- Strict codepoint-lexicographic order on character lists; this is the
ordering SQLite's default BINARY collation induces on (UTF-8) text values. -/
def charListLt : List Char → List Char → Bool
  | _, [] => false
  | [], _ :: _ => true
  | a :: as, b :: bs =>
      decide (a.toNat < b.toNat) || (a.toNat == b.toNat && charListLt as bs)

/-- Strict BINARY-collation order on strings. -/
def strLtB (a b : String) : Bool := charListLt a.data b.data

/-- Reflexive BINARY-collation order on strings. -/
def strLeB (a b : String) : Bool := !(charListLt b.data a.data)

/-! ## Data model: one row of the projects table (see EXPECTED_COLUMNS) -/

/-- One row of the projects table.  Nullable columns are Option-valued;
name and pillar are NOT NULL in the schema. -/
structure Row where
  id : Int
  name : String
  pillar : String
  priority : Option Int
  description : Option String
  owner : Option String
  status : Option String
  start_date : Option String
  due_date : Option String
  plainsware_project : Option String
  plainsware_number : Option String
  created_at : Option String
  updated_at : Option String
deriving DecidableEq, Repr

/-- The sentinel option label used by every filter selectbox. -/
def ALL_LABEL : String := "All"

/-- The filter dict handed to fetch_df (all values come from UI widgets as
strings; the search box may be empty). -/
structure Filters where
  pillar : String
  status : String
  owner : String
  priority : String
  plainsware : String
  search : String
deriving DecidableEq, Repr

/-! ## SQL LIKE and Python int() -/

/-- Fuel-indexed matcher for SQL LIKE patterns (wildcards % and _), compared
case-insensitively on the ASCII range as SQLite's default LIKE does.  The fuel
only bounds recursion depth; likeMatch supplies enough for full evaluation. -/
def likeMatchAux : Nat → List Char → List Char → Bool
  | 0, _, _ => false
  | _ + 1, [], [] => true
  | fuel + 1, '%' :: ps, hs =>
      likeMatchAux fuel ps hs ||
        (match hs with
         | [] => false
         | _ :: hs2 => likeMatchAux fuel ('%' :: ps) hs2)
  | fuel + 1, '_' :: ps, _ :: hs => likeMatchAux fuel ps hs
  | fuel + 1, p :: ps, h :: hs => (p.toLower == h.toLower) && likeMatchAux fuel ps hs
  | _ + 1, _, _ => false

/-- Embeds evaluation of the SQL expression (value LIKE pattern). -/
def likeMatch (pat hay : String) : Bool :=
  likeMatchAux (pat.data.length + hay.data.length + 1) pat.data hay.data

/-- Digits possibly separated by single underscores, as Python int() accepts
after the first digit. -/
def pyIntDigitsRest : List Char → Bool
  | [] => true
  | c :: cs =>
      if c == '_' then
        match cs with
        | [] => false
        | d :: ds => d.isDigit && pyIntDigitsRest ds
      else c.isDigit && pyIntDigitsRest cs

/-- Nonempty digit run, first character a digit. -/
def pyIntDigits : List Char → Bool
  | [] => false
  | c :: cs => c.isDigit && pyIntDigitsRest cs

/-- Numeric value of a digit run, skipping underscores. -/
def digitsVal (cs : List Char) : Nat :=
  cs.foldl (fun acc c => if c == '_' then acc else acc * 10 + (c.toNat - 48)) 0

/-- Embeds Python int(s) on a string: optional surrounding whitespace, optional
sign, ASCII digits with single interior underscores; none when it raises. -/
def pyIntOpt (s : String) : Option Int :=
  let cs := stripChars Char.isWhitespace s.data
  match cs with
  | '+' :: rest => if pyIntDigits rest then some (digitsVal rest : Int) else none
  | '-' :: rest => if pyIntDigits rest then some (-(digitsVal rest : Int)) else none
  | _ => if pyIntDigits cs then some (digitsVal cs : Int) else none

/-! ## fetch_df: WHERE clause and ORDER BY (src/app.py, fetch_df) -/

/-- Embeds the WHERE clause fetch_df builds from the filter dict.  Each
categorical filter is skipped when falsy or the sentinel "All"; a priority
value that int() cannot parse is popped from the clause again; search matches
LOWER(name) LIKE pattern OR LOWER(description) LIKE pattern, where a NULL
description makes its disjunct unknown (treated as no match). -/
def rowMatches (f : Filters) (r : Row) : Bool :=
  (if f.pillar ≠ "" ∧ f.pillar ≠ ALL_LABEL then r.pillar == f.pillar else true) &&
  (if f.status ≠ "" ∧ f.status ≠ ALL_LABEL then r.status == some f.status else true) &&
  (if f.owner ≠ "" ∧ f.owner ≠ ALL_LABEL then r.owner == some f.owner else true) &&
  (if f.plainsware ≠ "" ∧ f.plainsware ≠ ALL_LABEL then
     r.plainsware_project == some f.plainsware
   else true) &&
  (if f.priority ≠ "" ∧ f.priority ≠ ALL_LABEL then
     match pyIntOpt f.priority with
     | some v => r.priority == some v
     | none => true
   else true) &&
  (if f.search ≠ "" then
     let pat := "%" ++ lowerStr f.search ++ "%"
     likeMatch pat (lowerStr r.name) ||
       (match r.description with
        | some d => likeMatch pat (lowerStr d)
        | none => false)
   else true)

/-- The ORDER BY key of fetch_df:
COALESCE(start_date,''), COALESCE(due_date,''), COALESCE(created_at,''). -/
def orderKey (r : Row) : String × String × String :=
  (coalesce r.start_date, coalesce r.due_date, coalesce r.created_at)

/-- Lexicographic BINARY-collation comparison of two ORDER BY keys. -/
def lex3LeB : String × String × String → String × String × String → Bool
  | (a1, b1, c1), (a2, b2, c2) =>
      strLtB a1 a2 || (a1 == a2 && (strLtB b1 b2 || (b1 == b2 && strLeB c1 c2)))

/-- Row comparison realising fetch_df's ORDER BY clause. -/
def fetchLeB (r1 r2 : Row) : Bool := lex3LeB (orderKey r1) (orderKey r2)

/-- Propositional form of fetchLeB, for use with List.insertionSort. -/
def fetchLe (r1 r2 : Row) : Prop := fetchLeB r1 r2 = true

instance : DecidableRel fetchLe := fun a b => instDecidableEqBool (fetchLeB a b) true

/-- Embeds fetch_df: SELECT * FROM projects WHERE ... ORDER BY
COALESCE(start_date,''), COALESCE(due_date,''), COALESCE(created_at,''). -/
def fetch_df (db : List Row) (f : Filters) : List Row :=
  List.insertionSort fetchLe (db.filter (rowMatches f))

/-! ## Spec-modelled ordering for claim C1 (nulls and empties LAST) -/

/-- Modelled from the spec: the sort key the spec describes, where a null or
empty date is pushed to the end (none = absent-or-empty). -/
def nullsLastKey (s : Option String) : Option String :=
  match s with
  | none => none
  | some v => if v == "" then none else some v

/-- Modelled from the spec: strict ascending order with null/empty last. -/
def optStrNLLtB : Option String → Option String → Bool
  | some a, some b => strLtB a b
  | some _, none => true
  | none, _ => false

/-- Modelled from the spec: reflexive ascending order with null/empty last. -/
def optStrNLLeB : Option String → Option String → Bool
  | some a, some b => strLeB a b
  | some _, none => true
  | none, none => true
  | none, some _ => false

/-- Modelled from the spec: ascending by start_date (nulls/empty last), then
ascending by due_date (nulls/empty last) as tie-break. -/
def specLeB (r1 r2 : Row) : Bool :=
  let s1 := nullsLastKey r1.start_date
  let s2 := nullsLastKey r2.start_date
  if s1 == s2 then optStrNLLeB (nullsLastKey r1.due_date) (nullsLastKey r2.due_date)
  else optStrNLLtB s1 s2

/-- A row with no dates at all (only id/name/pillar/created_at populated). -/
def rowNoDates : Row :=
  { id := 1, name := "Alpha", pillar := "Smart Operations", priority := some 5,
    description := none, owner := some "Ann", status := none,
    start_date := none, due_date := none,
    plainsware_project := some "No", plainsware_number := none,
    created_at := some "2024-01-01 00:00:00", updated_at := some "2024-01-01 00:00:00" }

/-- A row with both dates populated. -/
def rowWithDates : Row :=
  { id := 2, name := "Beta", pillar := "Smart Operations", priority := some 5,
    description := none, owner := some "Ann", status := none,
    start_date := some "2024-03-01", due_date := some "2024-04-01",
    plainsware_project := some "No", plainsware_number := none,
    created_at := some "2024-01-02 00:00:00", updated_at := some "2024-01-02 00:00:00" }

/-- The filter set with every selectbox on "All" and an empty search box. -/
def allFilters : Filters :=
  { pillar := ALL_LABEL, status := ALL_LABEL, owner := ALL_LABEL,
    priority := ALL_LABEL, plainsware := ALL_LABEL, search := "" }

/-! ## distinct_values (src/app.py): SELECT DISTINCT col FROM projects
WHERE col IS NOT NULL AND TRIM(col) <> '' ORDER BY col -/

/-- Reflexive string order as a proposition, for List.insertionSort. -/
def strLe (a b : String) : Prop := strLeB a b = true

instance : DecidableRel strLe := fun a b => instDecidableEqBool (strLeB a b) true

/-- Embeds distinct_values over the stored values of one text column: keep the
non-NULL values whose SQL TRIM is nonempty, deduplicate, and sort ascending in
BINARY collation; the pandas tail (dropna/astype(str)/tolist) is the identity
on such a text column. -/
def distinct_values (vals : List (Option String)) : List String :=
  List.insertionSort strLe (((vals.filterMap id).filter (fun s => sqlTrim s ≠ "")).dedup)

/-- A string consisting only of whitespace characters (including the empty
string); the spec excludes exactly these from distinct_values results. -/
def whitespaceOnly (s : String) : Bool := s.data.all Char.isWhitespace

/-- A string consisting only of space characters (including the empty string);
these are what the SQL TRIM filter actually excludes. -/
def spacesOnly (s : String) : Bool := s.data.all (fun c => c == ' ')

/-! ## Plainsware validation and the form handlers (src/app.py) -/

/-- Embeds a case-insensitive full match of the regex JJMD-\d{7}
(see JJMD_PATTERN in src/app.py). -/
def jjmdMatch (s : String) : Bool :=
  s.data.length == 12 &&
  (s.data.take 5).map Char.toUpper == ['J', 'J', 'M', 'D', '-'] &&
  (s.data.drop 5).all Char.isDigit

/-- Embeds validate_plainsware: when the project flag reads yes, a number must
be present, nonempty after stripping, and match JJMD_PATTERN; the validated
value (stripped and upper-cased) is returned, otherwise None. -/
def validate_plainsware (pp : String) (pn : Option String) :
    Except String (Option String) :=
  if lowerStr (pyStrip pp) == "yes" then
    match pn with
    | none =>
        Except.error "Planisware Project Number is required when Plainsware Project is Yes."
    | some n =>
        if pyStrip n == "" then
          Except.error "Planisware Project Number is required when Plainsware Project is Yes."
        else
          let value := upperStr (pyStrip n)
          if jjmdMatch value then Except.ok (some value)
          else
            Except.error "Planisware Project Number must be in the format JJMD-0079575 (JJMD- + 7 digits)."
  else Except.ok none

/-- A calendar date as produced by st.date_input. -/
structure PyDate where
  year : Nat
  month : Nat
  day : Nat
deriving DecidableEq, Repr

/-- Decimal digits of a positive number, most significant first (fuel-bounded
structural recursion; 8 digits cover every field this app formats). -/
def natDecAux : Nat → Nat → List Char
  | 0, _ => []
  | _ + 1, 0 => []
  | fuel + 1, n => natDecAux fuel (n / 10) ++ [Char.ofNat (48 + n % 10)]

/-- Decimal rendering of a natural number. -/
def natDec (n : Nat) : String :=
  if n == 0 then "0" else String.mk (natDecAux 8 n)

/-- Left-pads a decimal rendering with zeros to the given width. -/
def zeroPad (w : Nat) (n : Nat) : String :=
  String.mk (List.replicate (w - (natDec n).data.length) '0' ++ (natDec n).data)

/-- Embeds to_iso: formats a date as YYYY-MM-DD, or "" when absent. -/
def to_iso (d : Option PyDate) : String :=
  match d with
  | none => ""
  | some d => zeroPad 4 d.year ++ "-" ++ zeroPad 2 d.month ++ "-" ++ zeroPad 2 d.day

/-- Embeds _clean from src/app.py: (s or "").strip(), on an already-string
widget value. -/
def cleanStr (s : String) : String := pyStrip s

/-- Embeds safe_int on the editor's priority value; st.number_input already
returns an integer, on which Python int() is the identity. -/
def safe_int (x : Int) (d : Int) : Int := x

/-- The values the project editor form submits: widget outputs before any
cleaning (the handlers clean them). -/
structure FormInput where
  name : String
  pillar : String
  owner : String
  status : String
  description : String
  priority : Int
  start_date : Option PyDate
  due_date : Option PyDate
  plainsware_project : String
  plainsware_number : Option String
deriving DecidableEq, Repr

/-- The required-field error messages the handlers accumulate, in order. -/
def baseErrors (inp : FormInput) : List String :=
  (if cleanStr inp.name == "" then ["Name is required."] else []) ++
  (if cleanStr inp.pillar == "" then ["Pillar is required."] else []) ++
  (if cleanStr inp.owner == "" then ["Owner is required."] else [])

/-- The conditional plainsware validation step of both handlers: only run when
the selectbox reads exactly Yes, otherwise pw_number_db stays None. -/
def pwResult (inp : FormInput) : Except String (Option String) :=
  if inp.plainsware_project == "Yes" then
    validate_plainsware inp.plainsware_project inp.plainsware_number
  else Except.ok none

/-- All validation errors a handler accumulates for the given form input. -/
def formErrors (inp : FormInput) : List String :=
  baseErrors inp ++
    (match pwResult inp with
     | Except.ok _ => []
     | Except.error m => [m])

/-- The pw_number_db value a handler would write (None while errors exist). -/
def pwNumberDb (inp : FormInput) : Option String :=
  match pwResult inp with
  | Except.ok v => v
  | Except.error _ => none

/-- The row the INSERT statement of the submitted_new handler writes. -/
def newRow (inp : FormInput) (pwNum : Option String) (ts : String) (rid : Int) : Row :=
  { id := rid,
    name := cleanStr inp.name,
    pillar := cleanStr inp.pillar,
    priority := some (safe_int inp.priority 5),
    description := some (cleanStr inp.description),
    owner := some (cleanStr inp.owner),
    status := some (cleanStr inp.status),
    start_date := some (to_iso inp.start_date),
    due_date := some (to_iso inp.due_date),
    plainsware_project := some inp.plainsware_project,
    plainsware_number := pwNum,
    created_at := some ts,
    updated_at := some ts }

/-- Embeds the submitted_new handler: validate, and only when the error list
is empty run the INSERT; returns the table afterwards and the errors shown. -/
def submittedNew (inp : FormInput) (ts : String) (rid : Int) (db : List Row) :
    List Row × List String :=
  let errors := formErrors inp
  if errors.isEmpty then (db ++ [newRow inp (pwNumberDb inp) ts rid], [])
  else (db, errors)

/-- The field overwrite the UPDATE statement of submitted_update performs. -/
def updateRow (inp : FormInput) (pwNum : Option String) (ts : String) (r : Row) : Row :=
  { r with
    name := cleanStr inp.name,
    pillar := cleanStr inp.pillar,
    priority := some (safe_int inp.priority 5),
    description := some (cleanStr inp.description),
    owner := some (cleanStr inp.owner),
    status := some (cleanStr inp.status),
    start_date := some (to_iso inp.start_date),
    due_date := some (to_iso inp.due_date),
    plainsware_project := some inp.plainsware_project,
    plainsware_number := pwNum,
    updated_at := some ts }

/-- Embeds the submitted_update handler: same validation as insert, and only
when no errors exist overwrite the row whose id matches the selection. -/
def submittedUpdate (inp : FormInput) (ts : String) (pid : Int) (db : List Row) :
    List Row × List String :=
  let errors := formErrors inp
  if errors.isEmpty then
    (db.map (fun r => if r.id == pid then updateRow inp (pwNumberDb inp) ts r else r), [])
  else (db, errors)

/-- The plainsware invariant of claim C2, as a decidable check on one row. -/
def pwInvariantB (r : Row) : Bool :=
  (if r.plainsware_project == some "Yes" then
     match r.plainsware_number with
     | some s => jjmdMatch s
     | none => false
   else true) &&
  (if r.plainsware_project == some "No" then r.plainsware_number == none else true)

/-! ## Schema migration (src/app.py: ensure_schema_and_migrate and helpers),
modelled at the level of PRAGMA table_info rows -/

/-- One row of PRAGMA table_info(projects): column name, declared type,
NOT NULL flag, and default value.  (The cid and pk fields are unused by the
migration logic and omitted.) -/
structure Col where
  cname : String
  ctype : String
  notnull : Bool
  dflt_value : Option String
deriving DecidableEq, Repr

/-- The table_info rows of the table the CREATE TABLE statement in
ensure_schema_and_migrate (and in _rebuild_projects_table) produces. -/
def expectedCreateCols : List Col :=
  [⟨"id", "INTEGER", false, none⟩,
   ⟨"name", "TEXT", true, none⟩,
   ⟨"pillar", "TEXT", true, none⟩,
   ⟨"priority", "INTEGER", false, some "5"⟩,
   ⟨"description", "TEXT", false, none⟩,
   ⟨"owner", "TEXT", false, none⟩,
   ⟨"status", "TEXT", false, none⟩,
   ⟨"start_date", "TEXT", false, none⟩,
   ⟨"due_date", "TEXT", false, none⟩,
   ⟨"plainsware_project", "TEXT", false, some "\x27No\x27"⟩,
   ⟨"plainsware_number", "TEXT", false, none⟩,
   ⟨"created_at", "TEXT", true, some "CURRENT_TIMESTAMP"⟩,
   ⟨"updated_at", "TEXT", true, some "CURRENT_TIMESTAMP"⟩]

/-- What the ALTER TABLE ADD COLUMN loop knows about an expected column: the
shape the DDL in EXPECTED_COLUMNS declares, and whether that DDL carries a
non-constant default (CURRENT_TIMESTAMP), which SQLite's ADD COLUMN rejects,
sending the code into its rebuild fallback. -/
structure ColSpec where
  ctype : String
  notnull : Bool
  dflt_value : Option String
  nonconstantDefault : Bool
deriving DecidableEq, Repr

/-- The EXPECTED_COLUMNS dict of src/app.py, in insertion order. -/
def EXPECTED_COLUMNS : List (String × ColSpec) :=
  [("id", ⟨"INTEGER", false, none, false⟩),
   ("name", ⟨"TEXT", true, none, false⟩),
   ("pillar", ⟨"TEXT", true, none, false⟩),
   ("priority", ⟨"INTEGER", false, some "5", false⟩),
   ("description", ⟨"TEXT", false, none, false⟩),
   ("owner", ⟨"TEXT", false, none, false⟩),
   ("status", ⟨"TEXT", false, none, false⟩),
   ("start_date", ⟨"TEXT", false, none, false⟩),
   ("due_date", ⟨"TEXT", false, none, false⟩),
   ("plainsware_project", ⟨"TEXT", false, some "\x27No\x27", false⟩),
   ("plainsware_number", ⟨"TEXT", false, none, false⟩),
   ("created_at", ⟨"TEXT", true, some "CURRENT_TIMESTAMP", true⟩),
   ("updated_at", ⟨"TEXT", true, some "CURRENT_TIMESTAMP", true⟩)]

/-- Column names of a table_info listing. -/
def colNames (cols : List Col) : List String := cols.map Col.cname

/-- Lookup of one column's table_info row, as the pandas mask does. -/
def findCol (cols : List Col) (n : String) : Option Col :=
  cols.find? (fun c => c.cname == n)

/-- Embeds _needs_rebuild_due_to_created_at: a created_at column that is
NOT NULL but has a missing or blank default forces a rebuild. -/
def needsRebuildCreatedAt (cols : List Col) : Bool :=
  if cols.isEmpty then false
  else
    match findCol cols "created_at" with
    | none => false
    | some c =>
        c.notnull &&
          (match c.dflt_value with
           | none => true
           | some d => pyStrip d == "")

/-- Embeds _needs_rebuild_due_to_plainsware_number_type: a plainsware_number
column whose declared type is not TEXT forces a rebuild. -/
def needsRebuildPwType (cols : List Col) : Bool :=
  if cols.isEmpty then false
  else
    match findCol cols "plainsware_number" with
    | none => false
    | some c => upperStr (pyStrip c.ctype) != "TEXT"

/-- One schema-changing statement the migration may execute. -/
inductive MigAction
  | createTable
  | renameColumn (old new : String)
  | rebuild
  | addColumn (c : String)
deriving DecidableEq, Repr

/-- ALTER TABLE RENAME COLUMN at the table_info level. -/
def renameCol (cols : List Col) (old new : String) : List Col :=
  cols.map (fun c => if c.cname == old then { c with cname := new } else c)

/-- The ALTER TABLE ADD COLUMN loop at the end of ensure_schema_and_migrate:
membership is tested against the existing_set snapshot taken before the loop;
adding a column whose DDL default is non-constant raises in SQLite, which the
code turns into a rebuild followed by break. -/
def addMissingLoop (existing : List String) :
    List (String × ColSpec) → List Col → List MigAction → List Col × List MigAction
  | [], cols, acts => (cols, acts)
  | (n, spec) :: rest, cols, acts =>
      if !existing.contains n && n != "id" && n != "name" && n != "pillar" then
        if spec.nonconstantDefault then (expectedCreateCols, acts ++ [MigAction.rebuild])
        else
          addMissingLoop existing rest
            (cols ++ [⟨n, spec.ctype, spec.notnull, spec.dflt_value⟩])
            (acts ++ [MigAction.addColumn n])
      else addMissingLoop existing rest cols acts

/-- Embeds ensure_schema_and_migrate at the schema level.  The state is the
table_info listing (none when the table does not exist); the result pairs the
final listing with the log of schema-changing statements executed.  A rebuild
replaces the schema with the expected one (the data copy it performs does not
affect the schema).  Legacy renames are tested against the existing_set
snapshot taken right after table creation, as in the source. -/
def ensure_schema_and_migrate (db : Option (List Col)) : List Col × List MigAction :=
  let step0 : List Col × List MigAction :=
    match db with
    | none => (expectedCreateCols, [MigAction.createTable])
    | some cs => (cs, [])
  let names0 := colNames step0.1
  let step1 : List Col × List MigAction :=
    if names0.contains "plainsware_proj" && !(names0.contains "plainsware_project") then
      (renameCol step0.1 "plainsware_proj" "plainsware_project",
       step0.2 ++ [MigAction.renameColumn "plainsware_proj" "plainsware_project"])
    else step0
  let step2 : List Col × List MigAction :=
    if names0.contains "plainsware_num" && !(names0.contains "plainsware_number") then
      (renameCol step1.1 "plainsware_num" "plainsware_number",
       step1.2 ++ [MigAction.renameColumn "plainsware_num" "plainsware_number"])
    else step1
  let step3 : List Col × List MigAction :=
    if needsRebuildCreatedAt step2.1 then (expectedCreateCols, step2.2 ++ [MigAction.rebuild])
    else step2
  let step4 : List Col × List MigAction :=
    if needsRebuildPwType step3.1 then (expectedCreateCols, step3.2 ++ [MigAction.rebuild])
    else step3
  addMissingLoop (colNames step4.1) EXPECTED_COLUMNS step4.1 step4.2

/-! ## status_to_state and the KPI counters (src/app.py) -/

/-- Python str() applied to a nullable status cell: a missing value renders as
the text None under str(), which classifies as Ongoing like any other string
outside the completed set. -/
def pyStrCell (x : Option String) : String :=
  match x with
  | none => "None"
  | some s => s

/-- Embeds status_to_state: Completed exactly when the stripped, lower-cased
status is one of done, complete, completed; otherwise Ongoing. -/
def status_to_state (x : Option String) : String :=
  if ["done", "complete", "completed"].contains (lowerStr (pyStrip (pyStrCell x)))
  then "Completed" else "Ongoing"

/-- Embeds the Completed KPI: (data.status.apply(status_to_state) == "Completed").sum(). -/
def completedCount (data : List Row) : Nat :=
  (data.filter (fun r => status_to_state r.status == "Completed")).length

/-- Embeds the Ongoing KPI: (data.status.apply(status_to_state) != "Completed").sum(). -/
def ongoingCount (data : List Row) : Nat :=
  (data.filter (fun r => status_to_state r.status != "Completed")).length

/-! ## Derived year columns and the year filter (src/app.py) -/

/-- Leap year test of the proleptic Gregorian calendar. -/
def isLeap (y : Nat) : Bool :=
  (y % 4 == 0 && y % 100 != 0) || y % 400 == 0

/-- Number of days in a month. -/
def daysInMonth (y m : Nat) : Nat :=
  if m == 2 then (if isLeap y then 29 else 28)
  else if m == 4 || m == 6 || m == 9 || m == 11 then 30
  else 31

/-- Numeric value of one ASCII digit. -/
def digitVal (c : Char) : Nat := c.toNat - 48

/-- Embeds pd.to_datetime(..., errors="coerce") restricted to the strict
YYYY-MM-DD strings this application stores (to_iso output): none models NaT
for the empty string or any malformed or non-calendar date. -/
def parseIsoDate (s : String) : Option (Nat × Nat × Nat) :=
  match s.data with
  | [y1, y2, y3, y4, h1, m1, m2, h2, d1, d2] =>
      if y1.isDigit && y2.isDigit && y3.isDigit && y4.isDigit && h1 == '-' &&
         m1.isDigit && m2.isDigit && h2 == '-' && d1.isDigit && d2.isDigit then
        let y := ((digitVal y1 * 10 + digitVal y2) * 10 + digitVal y3) * 10 + digitVal y4
        let m := digitVal m1 * 10 + digitVal m2
        let d := digitVal d1 * 10 + digitVal d2
        if 1 ≤ m && m ≤ 12 && 1 ≤ d && d ≤ daysInMonth y m then some (y, m, d) else none
      else none
  | _ => none

/-- Datetime parse of a nullable date column cell (NULL reads as NaT). -/
def toDatetimeCell (s : Option String) : Option (Nat × Nat × Nat) :=
  match s with
  | none => none
  | some v => parseIsoDate v

/-- The derived start_year column: pd.to_datetime(start_date).dt.year. -/
def startYear (r : Row) : Option Nat := (toDatetimeCell r.start_date).map (fun t => t.1)

/-- The derived due_year column: pd.to_datetime(due_date).dt.year. -/
def dueYear (r : Row) : Option Nat := (toDatetimeCell r.due_date).map (fun t => t.1)

/-- The year column the Year Type radio selects: start_year for the literal
label Start Year, due_year otherwise. -/
def yearColOf (year_mode : String) (r : Row) : Option Nat :=
  if year_mode == "Start Year" then startYear r else dueYear r

/-- Embeds the year filter: data[data[year_col] == int(year_f)], where a NaN
year compares unequal to every int. -/
def applyYearFilter (year_mode : String) (y : Nat) (data : List Row) : List Row :=
  data.filter (fun r => yearColOf year_mode r == some y)

/-! ## Roadmap rows (src/app.py: the gantt block) -/

/-- The tuple one roadmap row exposes: label, parsed Start, parsed Finish, and
the pillar used for colouring. -/
def ganttTuple (r : Row) : Option (String × (Nat × Nat × Nat) × (Nat × Nat × Nat) × String) :=
  match toDatetimeCell r.start_date, toDatetimeCell r.due_date with
  | some s, some e => some (r.name, s, e, r.pillar)
  | _, _ => none

/-- Embeds the roadmap block: parse Start and Finish with coercion and drop
rows where either is NaT, keeping the frame's row order. -/
def gantt (data : List Row) :
    List (String × (Nat × Nat × Nat) × (Nat × Nat × Nat) × String) :=
  data.filterMap ganttTuple

/-- Both-dates test for a roadmap row. -/
def hasBothDates (r : Row) : Bool :=
  (toDatetimeCell r.start_date).isSome && (toDatetimeCell r.due_date).isSome

/-- Total tuple projection for rows that pass hasBothDates. -/
def ganttTupleTotal (r : Row) : String × (Nat × Nat × Nat) × (Nat × Nat × Nat) × String :=
  (r.name, (toDatetimeCell r.start_date).getD (0, 0, 0),
   (toDatetimeCell r.due_date).getD (0, 0, 0), r.pillar)

/-! ## Top N per pillar (src/app.py: the top_df block) -/

/-- The replace step: data.replace on the pillar column relabels the empty
string as (Unspecified). -/
def replUnspec (r : Row) : Row :=
  if r.pillar == "" then { r with pillar := "(Unspecified)" } else r

/-- Strict order on nullable priorities with NaN sorted last, as
sort_values(..., na_position="last") ranks the priority key. -/
def optIntLtB : Option Int → Option Int → Bool
  | some a, some b => decide (a < b)
  | some _, none => true
  | none, _ => false

/-- Tie-break comparison inside one pillar group: priority ascending with NaN
last, then name ascending. -/
def prioNameLeB (a b : Row) : Bool :=
  optIntLtB a.priority b.priority ||
    (a.priority == b.priority && strLeB a.name b.name)

/-- The full sort_values key: pillar, then priority, then name, ascending. -/
def topLeB (a b : Row) : Bool :=
  strLtB a.pillar b.pillar || (a.pillar == b.pillar && prioNameLeB a b)

/-- Propositional form of topLeB, for use with List.insertionSort. -/
def topLe (a b : Row) : Prop := topLeB a b = true

instance : DecidableRel topLe := fun a b => instDecidableEqBool (topLeB a b) true

/-- Per-key update of the running group-size table. -/
def bumpCount : List (String × Nat) → String → List (String × Nat)
  | [], k => [(k, 1)]
  | (k2, c) :: rest, k =>
      if k2 == k then (k2, c + 1) :: rest else (k2, c) :: bumpCount rest k

/-- Lookup in the running group-size table (0 when the key is unseen). -/
def countIn : List (String × Nat) → String → Nat
  | [], _ => 0
  | (k2, c) :: rest, k => if k2 == k then c else countIn rest k

/-- Embeds groupby("pillar").head(n) on an already sorted frame: walk the rows
in order and keep each row while fewer than n rows of its pillar were kept. -/
def groupHead (n : Nat) : List (String × Nat) → List Row → List Row
  | _, [] => []
  | seen, r :: rs =>
      if countIn seen r.pillar < n then r :: groupHead n (bumpCount seen r.pillar) rs
      else groupHead n seen rs

/-- Embeds the top_df block: relabel blank pillars, sort by pillar, priority,
name (NaN last), and keep the first n rows of each pillar group. -/
def top_df (data : List Row) (n : Nat) : List Row :=
  groupHead n [] (List.insertionSort topLe (data.map replUnspec))

/-! # Theorems

First, order-theoretic facts about the BINARY-collation comparison and the
lexicographic comparators built from it. -/

theorem charListLt_irrefl (xs : List Char) : charListLt xs xs = false := by
  induction xs with
  | nil => rfl
  | cons a as ih => simp [charListLt, ih]

theorem charListLt_trans (xs : List Char) : ∀ ys zs,
    charListLt xs ys = true → charListLt ys zs = true → charListLt xs zs = true := by
  induction xs with
  | nil =>
    intro ys zs h1 h2
    cases ys with
    | nil => simp [charListLt] at h1
    | cons b bs =>
      cases zs with
      | nil => simp [charListLt] at h2
      | cons c cs => simp [charListLt]
  | cons a as ih =>
    intro ys zs h1 h2
    cases ys with
    | nil => simp [charListLt] at h1
    | cons b bs =>
      cases zs with
      | nil => simp [charListLt] at h2
      | cons c cs =>
        simp only [charListLt, Bool.or_eq_true, Bool.and_eq_true, decide_eq_true_eq,
          beq_iff_eq] at h1 h2 ⊢
        rcases h1 with h1 | ⟨he1, hr1⟩
        · rcases h2 with h2 | ⟨he2, hr2⟩
          · exact Or.inl (by omega)
          · exact Or.inl (by omega)
        · rcases h2 with h2 | ⟨he2, hr2⟩
          · exact Or.inl (by omega)
          · exact Or.inr ⟨by omega, ih bs cs hr1 hr2⟩

theorem charListLt_connex (xs : List Char) : ∀ ys,
    charListLt xs ys = false → charListLt ys xs = false → xs = ys := by
  induction xs with
  | nil =>
    intro ys h1 h2
    cases ys with
    | nil => rfl
    | cons b bs => simp [charListLt] at h1
  | cons a as ih =>
    intro ys h1 h2
    cases ys with
    | nil => simp [charListLt] at h2
    | cons b bs =>
      simp only [charListLt, Bool.or_eq_false_iff, Bool.and_eq_false_iff,
        decide_eq_false_iff_not, beq_eq_false_iff_ne, ne_eq] at h1 h2
      have hab : a.toNat = b.toNat := by omega
      have hchar : a = b := Char.eq_of_val_eq (UInt32.ext hab)
      rcases h1.2 with h | h
      · exact absurd hab h
      · rcases h2.2 with h2b | h2b
        · exact absurd hab.symm h2b
        · exact by rw [hchar, ih bs h h2b]

theorem charListLt_asymm (xs ys : List Char) (h : charListLt xs ys = true) :
    charListLt ys xs = false := by
  cases h2 : charListLt ys xs with
  | false => rfl
  | true =>
    have := charListLt_trans xs ys xs h h2
    rw [charListLt_irrefl] at this
    exact absurd this (by simp)

theorem strLtB_irrefl (a : String) : strLtB a a = false := charListLt_irrefl _

theorem strLtB_trans (a b c : String) (h1 : strLtB a b = true) (h2 : strLtB b c = true) :
    strLtB a c = true := charListLt_trans _ _ _ h1 h2

theorem strLtB_asymm (a b : String) (h : strLtB a b = true) : strLtB b a = false :=
  charListLt_asymm _ _ h

theorem strLtB_connex (a b : String) (h1 : strLtB a b = false) (h2 : strLtB b a = false) :
    a = b :=
  congrArg String.mk (charListLt_connex a.data b.data h1 h2)

theorem strLeB_iff (a b : String) : strLeB a b = true ↔ strLtB b a = false := by
  show (!(strLtB b a)) = true ↔ strLtB b a = false
  cases strLtB b a <;> simp

theorem strLtB_false_cases (a b : String) (h : strLtB a b = false) :
    strLtB b a = true ∨ a = b := by
  cases h2 : strLtB b a with
  | true => exact Or.inl rfl
  | false => exact Or.inr (strLtB_connex a b h h2)

theorem strLeB_refl (a : String) : strLeB a a = true :=
  (strLeB_iff a a).mpr (strLtB_irrefl a)

theorem strLeB_total (a b : String) : strLeB a b = true ∨ strLeB b a = true := by
  rw [strLeB_iff, strLeB_iff]
  cases h : strLtB b a with
  | false => exact Or.inl rfl
  | true => exact Or.inr (strLtB_asymm b a h)

theorem strLeB_trans (a b c : String) (h1 : strLeB a b = true) (h2 : strLeB b c = true) :
    strLeB a c = true := by
  rw [strLeB_iff] at h1 h2 ⊢
  cases h : strLtB c a with
  | false => rfl
  | true =>
    exfalso
    rcases strLtB_false_cases c b h2 with hbc | rfl
    · have : strLtB b a = true := strLtB_trans b c a hbc h
      rw [this] at h1
      exact absurd h1 (by simp)
    · rw [h] at h1
      exact absurd h1 (by simp)

theorem strLtB_of_lt_of_le (a b c : String) (h1 : strLtB a b = true)
    (h2 : strLeB b c = true) : strLtB a c = true := by
  rw [strLeB_iff] at h2
  rcases strLtB_false_cases c b h2 with hbc | rfl
  · exact strLtB_trans a b c h1 hbc
  · exact h1

theorem strLtB_of_le_of_lt (a b c : String) (h1 : strLeB a b = true)
    (h2 : strLtB b c = true) : strLtB a c = true := by
  rw [strLeB_iff] at h1
  rcases strLtB_false_cases b a h1 with hab | rfl
  · exact strLtB_trans a b c hab h2
  · exact h2

theorem lex3LeB_eq_true_iff (x y : String × String × String) :
    lex3LeB x y = true ↔
      strLtB x.1 y.1 = true ∨
        (x.1 = y.1 ∧ (strLtB x.2.1 y.2.1 = true ∨
          (x.2.1 = y.2.1 ∧ strLeB x.2.2 y.2.2 = true))) := by
  obtain ⟨a1, b1, c1⟩ := x
  obtain ⟨a2, b2, c2⟩ := y
  simp [lex3LeB, Bool.or_eq_true, Bool.and_eq_true, beq_iff_eq]

theorem lex3LeB_total (x y : String × String × String) :
    lex3LeB x y = true ∨ lex3LeB y x = true := by
  rw [lex3LeB_eq_true_iff, lex3LeB_eq_true_iff]
  cases hab : strLtB x.1 y.1 with
  | true => exact Or.inl (Or.inl rfl)
  | false =>
    cases hba : strLtB y.1 x.1 with
    | true => exact Or.inr (Or.inl rfl)
    | false =>
      have h1 : x.1 = y.1 := strLtB_connex _ _ hab hba
      cases hb : strLtB x.2.1 y.2.1 with
      | true => exact Or.inl (Or.inr ⟨h1, Or.inl rfl⟩)
      | false =>
        cases hb2 : strLtB y.2.1 x.2.1 with
        | true => exact Or.inr (Or.inr ⟨h1.symm, Or.inl rfl⟩)
        | false =>
          have h2 : x.2.1 = y.2.1 := strLtB_connex _ _ hb hb2
          rcases strLeB_total x.2.2 y.2.2 with h | h
          · exact Or.inl (Or.inr ⟨h1, Or.inr ⟨h2, h⟩⟩)
          · exact Or.inr (Or.inr ⟨h1.symm, Or.inr ⟨h2.symm, h⟩⟩)

theorem lex3LeB_trans (x y z : String × String × String)
    (h1 : lex3LeB x y = true) (h2 : lex3LeB y z = true) : lex3LeB x z = true := by
  rw [lex3LeB_eq_true_iff] at h1 h2 ⊢
  rcases h1 with h1 | ⟨e1, h1⟩
  · rcases h2 with h2 | ⟨e2, h2⟩
    · exact Or.inl (strLtB_trans _ _ _ h1 h2)
    · exact Or.inl (e2 ▸ h1)
  · rcases h2 with h2 | ⟨e2, h2⟩
    · exact Or.inl (e1 ▸ h2)
    · refine Or.inr ⟨e1.trans e2, ?_⟩
      rcases h1 with h1 | ⟨f1, h1⟩
      · rcases h2 with h2 | ⟨f2, h2⟩
        · exact Or.inl (strLtB_trans _ _ _ h1 h2)
        · exact Or.inl (f2 ▸ h1)
      · rcases h2 with h2 | ⟨f2, h2⟩
        · exact Or.inl (f1 ▸ h2)
        · exact Or.inr ⟨f1.trans f2, strLeB_trans _ _ _ h1 h2⟩

theorem fetchLe_total (a b : Row) : fetchLe a b ∨ fetchLe b a :=
  lex3LeB_total (orderKey a) (orderKey b)

theorem fetchLe_trans (a b c : Row) (h1 : fetchLe a b) (h2 : fetchLe b c) : fetchLe a c :=
  lex3LeB_trans (orderKey a) (orderKey b) (orderKey c) h1 h2

/-- C1, amended part.  For every table state and every filter set, the record
list fetch_df returns is sorted ascending by the key COALESCE(start_date,''),
then COALESCE(due_date,''), then COALESCE(created_at,''); since NULL and ''
coalesce to the empty string, which precedes every nonempty date string,
records with a missing or empty start_date come FIRST, not last (and likewise
for due_date), with created_at as a final tie-break the claim does not
mention. -/
theorem c1_fetch_df_sorted_coalesce_first (db : List Row) (f : Filters) :
    List.Sorted fetchLe (fetch_df db f) := by
  haveI : IsTotal Row fetchLe := ⟨fetchLe_total⟩
  haveI : IsTrans Row fetchLe := ⟨fetchLe_trans⟩
  exact List.sorted_insertionSort fetchLe (db.filter (rowMatches f))

/-- C1, counterexample.  On a two-row table where one record has no dates at
all, fetch_df (with every filter on "All") returns the date-less record first,
so the output is not ordered with nulls/empties last as the claim states. -/
theorem c1_counterexample :
    fetch_df [rowWithDates, rowNoDates] allFilters = [rowNoDates, rowWithDates] ∧
      ¬ List.Pairwise (fun a b => specLeB a b = true)
        (fetch_df [rowWithDates, rowNoDates] allFilters) := by
  constructor
  · rfl
  · decide

/-! ## C6: distinct_values -/

theorem sqlTrim_of_spacesOnly (s : String) (h : spacesOnly s = true) : sqlTrim s = "" := by
  unfold sqlTrim stripChars
  have h1 : s.data.dropWhile (fun c => c == ' ') = [] := by
    rw [List.dropWhile_eq_nil_iff]
    intro x hx
    exact (List.all_eq_true.mp h) x hx
  rw [h1]
  rfl

theorem mem_distinct_values {vals : List (Option String)} {s : String}
    (hs : s ∈ distinct_values vals) : sqlTrim s ≠ "" := by
  have h1 : s ∈ ((vals.filterMap id).filter (fun v => sqlTrim v ≠ "")).dedup :=
    ((List.perm_insertionSort strLe _).mem_iff).mp hs
  have h3 := List.mem_filter.mp (List.mem_dedup.mp h1)
  simpa using h3.2

/-- C6, amended part.  For every stored column content, distinct_values
returns a list sorted ascending (BINARY collation) that contains no empty and
no space-only strings; strings made only of other whitespace (tabs, newlines)
are NOT excluded, because SQL TRIM strips only space characters. -/
theorem c6_distinct_values_sorted_nonblank (vals : List (Option String)) :
    List.Sorted strLe (distinct_values vals) ∧
      (distinct_values vals).all (fun s => !(s == "") && !(spacesOnly s)) = true := by
  constructor
  · haveI : IsTotal String strLe := ⟨strLeB_total⟩
    haveI : IsTrans String strLe := ⟨strLeB_trans⟩
    exact List.sorted_insertionSort strLe _
  · rw [List.all_eq_true]
    intro s hs
    have hne := mem_distinct_values hs
    rw [Bool.and_eq_true, Bool.not_eq_true', Bool.not_eq_true']
    constructor
    · cases hb : (s == "") with
      | false => rfl
      | true =>
        exfalso
        exact hne (by rw [beq_iff_eq.mp hb]; rfl)
    · cases hb : spacesOnly s with
      | false => rfl
      | true => exact absurd (sqlTrim_of_spacesOnly s hb) hne

/-- C6, counterexample.  A stored value consisting of a single tab character
survives the SQL TRIM filter, so distinct_values returns a whitespace-only
string, contradicting the claim that no whitespace-only strings appear. -/
theorem c6_counterexample :
    distinct_values [some "\t"] = ["\t"] ∧ whitespaceOnly "\t" = true := by
  constructor
  · rfl
  · decide

/-! ## C2 and C3: the form handlers -/

theorem validate_plainsware_yes_ok (pp : String) (pn : Option String) (v : Option String)
    (hok : validate_plainsware pp pn = Except.ok v)
    (hyes : lowerStr (pyStrip pp) = "yes") :
    ∃ s, v = some s ∧ jjmdMatch s = true := by
  unfold validate_plainsware at hok
  rw [hyes] at hok
  simp only [beq_self_eq_true, if_true] at hok
  split at hok
  · exact absurd hok (by simp)
  · split at hok
    · exact absurd hok (by simp)
    · split at hok
      · rename_i n hne hjj
        exact ⟨upperStr (pyStrip n), (Except.ok.inj hok).symm, hjj⟩
      · exact absurd hok (by simp)

theorem formErrors_nil_pwOk (inp : FormInput) (h : formErrors inp = []) :
    pwResult inp = Except.ok (pwNumberDb inp) := by
  unfold formErrors at h
  rcases List.append_eq_nil.mp h with ⟨h1, h2⟩
  unfold pwNumberDb
  cases hp : pwResult inp with
  | ok v => rfl
  | error m => rw [hp] at h2; exact absurd h2 (by simp)

theorem pwFields_ok (inp : FormInput) (h : formErrors inp = []) :
    (inp.plainsware_project = "Yes" →
      ∃ s, pwNumberDb inp = some s ∧ jjmdMatch s = true) ∧
    (inp.plainsware_project ≠ "Yes" → pwNumberDb inp = none) := by
  have hok := formErrors_nil_pwOk inp h
  constructor
  · intro hyes
    have : pwResult inp = validate_plainsware inp.plainsware_project inp.plainsware_number := by
      unfold pwResult
      rw [hyes]
      simp
    rw [this] at hok
    exact validate_plainsware_yes_ok _ _ _ hok (by rw [hyes]; rfl)
  · intro hno
    have : pwResult inp = Except.ok none := by
      unfold pwResult
      rw [if_neg (by simpa using hno)]
    rw [this] at hok
    exact (Except.ok.inj hok).symm

theorem pwInvariantB_of_fields (pp : String) (num : Option String)
    (h1 : pp = "Yes" → ∃ s, num = some s ∧ jjmdMatch s = true)
    (h2 : pp ≠ "Yes" → num = none)
    (r : Row) (hr1 : r.plainsware_project = some pp) (hr2 : r.plainsware_number = num) :
    pwInvariantB r = true := by
  unfold pwInvariantB
  rw [hr1, hr2, Bool.and_eq_true]
  by_cases hyes : pp = "Yes"
  · obtain ⟨s, hs, hjj⟩ := h1 hyes
    subst hyes
    rw [hs]
    constructor
    · simpa using hjj
    · simp
  · rw [h2 hyes]
    constructor
    · rw [if_neg (by simpa using fun he => hyes (by simpa using he))]
    · by_cases hno : pp = "No"
      · subst hno; simp
      · rw [if_neg (by simpa using fun he => hno (by simpa using he))]

theorem newRow_pwInvariant (inp : FormInput) (ts : String) (rid : Int)
    (h : formErrors inp = []) :
    pwInvariantB (newRow inp (pwNumberDb inp) ts rid) = true := by
  obtain ⟨h1, h2⟩ := pwFields_ok inp h
  exact pwInvariantB_of_fields inp.plainsware_project (pwNumberDb inp) h1 h2 _ rfl rfl

theorem updateRow_pwInvariant (inp : FormInput) (ts : String) (r : Row)
    (h : formErrors inp = []) :
    pwInvariantB (updateRow inp (pwNumberDb inp) ts r) = true := by
  obtain ⟨h1, h2⟩ := pwFields_ok inp h
  exact pwInvariantB_of_fields inp.plainsware_project (pwNumberDb inp) h1 h2 _ rfl rfl

/-- C2.  The plainsware invariant (plainsware_project = "Yes" implies a
stored number matching JJMD- plus 7 digits, plainsware_project = "No" implies
a null number) is established by the insert handler and preserved by the
update handler: starting from any table whose rows all satisfy it, the table
after submitted_new and the table after submitted_update still satisfy it. -/
theorem c2_pw_invariant_preserved (inp : FormInput) (ts : String) (rid pid : Int)
    (db : List Row) (hdb : db.all pwInvariantB = true) :
    (submittedNew inp ts rid db).1.all pwInvariantB = true ∧
      (submittedUpdate inp ts pid db).1.all pwInvariantB = true := by
  unfold submittedNew submittedUpdate
  cases he : (formErrors inp).isEmpty with
  | false => simp only [he, if_false]; exact ⟨hdb, hdb⟩
  | true =>
    have hnil : formErrors inp = [] := List.isEmpty_iff.mp he
    simp only [he, if_true]
    constructor
    · rw [List.all_append, Bool.and_eq_true]
      refine ⟨hdb, ?_⟩
      simp [newRow_pwInvariant inp ts rid hnil]
    · rw [List.all_eq_true]
      intro r hr
      obtain ⟨r0, hr0, hmap⟩ := List.mem_map.mp hr
      by_cases hid : r0.id == pid
      · rw [if_pos hid] at hmap
        rw [← hmap]
        exact updateRow_pwInvariant inp ts r0 hnil
      · rw [if_neg hid] at hmap
        rw [← hmap]
        exact List.all_eq_true.mp hdb r0 hr0

/-- The form input used to witness the handler theorems: a valid new project
marked as a Plainsware project. -/
def exInputValid : FormInput :=
  { name := "Site Revamp", pillar := "Process Excellence", owner := "J.Doe",
    status := "Planned", description := "", priority := 1,
    start_date := some ⟨2026, 1, 15⟩, due_date := some ⟨2026, 3, 31⟩,
    plainsware_project := "Yes", plainsware_number := some "jjmd-0079575" }

/-- Witness for C2 at a concrete input: one invariant-satisfying row in the
table, a valid Yes-flagged form, both handler runs keep the invariant. -/
theorem c2_pw_invariant_preserved_witness :
    [rowNoDates].all pwInvariantB = true ∧
      ((submittedNew exInputValid "2026-01-01 00:00:00" 2 [rowNoDates]).1.all pwInvariantB = true ∧
        (submittedUpdate exInputValid "2026-01-01 00:00:00" 1 [rowNoDates]).1.all pwInvariantB = true) :=
  ⟨by decide,
   c2_pw_invariant_preserved exInputValid "2026-01-01 00:00:00" 2 1 [rowNoDates] (by decide)⟩

theorem formErrors_ne_nil (inp : FormInput)
    (h : cleanStr inp.name = "" ∨ cleanStr inp.pillar = "" ∨ cleanStr inp.owner = "" ∨
      (∃ m, pwResult inp = Except.error m)) :
    formErrors inp ≠ [] := by
  rcases h with h | h | h | ⟨m, h⟩
  · refine List.ne_nil_of_mem (a := "Name is required.") ?_
    unfold formErrors baseErrors
    refine List.mem_append_left _ (List.mem_append_left _ (List.mem_append_left _ ?_))
    rw [if_pos (by simpa using h)]
    exact List.mem_singleton.mpr rfl
  · refine List.ne_nil_of_mem (a := "Pillar is required.") ?_
    unfold formErrors baseErrors
    refine List.mem_append_left _ (List.mem_append_left _ (List.mem_append_right _ ?_))
    rw [if_pos (by simpa using h)]
    exact List.mem_singleton.mpr rfl
  · refine List.ne_nil_of_mem (a := "Owner is required.") ?_
    unfold formErrors baseErrors
    refine List.mem_append_left _ (List.mem_append_right _ ?_)
    rw [if_pos (by simpa using h)]
    exact List.mem_singleton.mpr rfl
  · refine List.ne_nil_of_mem (a := m) ?_
    unfold formErrors
    refine List.mem_append_right _ ?_
    rw [h]
    exact List.mem_singleton.mpr rfl

/-- C3.  Whenever name, pillar, or owner is empty after trimming, or the
conditional plainsware validation fails, the insert handler reports at least
one validation error and leaves the table exactly as it was (in particular
the row count is unchanged); the INSERT only runs after validation passes. -/
theorem c3_invalid_insert_rejected (inp : FormInput) (ts : String) (rid : Int)
    (db : List Row)
    (h : cleanStr inp.name = "" ∨ cleanStr inp.pillar = "" ∨ cleanStr inp.owner = "" ∨
      (∃ m, pwResult inp = Except.error m)) :
    (submittedNew inp ts rid db).1 = db ∧ (submittedNew inp ts rid db).2 ≠ [] := by
  have hne := formErrors_ne_nil inp h
  have he : (formErrors inp).isEmpty = false := by
    cases hi : (formErrors inp).isEmpty with
    | false => rfl
    | true => exact absurd (List.isEmpty_iff.mp hi) hne
  unfold submittedNew
  simp only [he, if_false]
  exact ⟨rfl, hne⟩

/-- The form input used to witness C3: blank name, everything else valid. -/
def exInputBlankName : FormInput :=
  { name := "   ", pillar := "Process Excellence", owner := "J.Doe",
    status := "", description := "", priority := 5,
    start_date := none, due_date := none,
    plainsware_project := "No", plainsware_number := none }

/-- Witness for C3 at a concrete input: inserting with a blank name on a
one-row table fails with an error and keeps the table unchanged. -/
theorem c3_invalid_insert_rejected_witness :
    cleanStr exInputBlankName.name = "" ∧
      ((submittedNew exInputBlankName "ts" 2 [rowNoDates]).1 = [rowNoDates] ∧
        (submittedNew exInputBlankName "ts" 2 [rowNoDates]).2 ≠ []) :=
  ⟨by decide,
   c3_invalid_insert_rejected exInputBlankName "ts" 2 [rowNoDates] (Or.inl (by decide))⟩

/-! ## C4: schema migration idempotence -/

/-- C4.  Running ensure_schema_and_migrate on a database already carrying the
expected schema executes no schema-changing statement (no renames, no column
adds, no rebuild) and leaves the schema untouched; in particular the run
right after a first run on a fresh database is such a no-op, so migration is
idempotent and raises no error. -/
theorem c4_migration_idempotent :
    ensure_schema_and_migrate (some expectedCreateCols) = (expectedCreateCols, []) ∧
      ensure_schema_and_migrate (some (ensure_schema_and_migrate none).1) =
        ((ensure_schema_and_migrate none).1, []) := by
  constructor
  · rfl
  · rfl

/-! ## C7: the year filter -/

theorem yearColOf_eq (mode : String) (r : Row) :
    yearColOf mode r =
      (toDatetimeCell (if mode == "Start Year" then r.start_date else r.due_date)).map
        (fun t => t.1) := by
  unfold yearColOf startYear dueYear
  by_cases h : (mode == "Start Year") = true
  · rw [if_pos h, if_pos h]
  · rw [if_neg h, if_neg h]

/-- C7.  With a specific year selected, the year filter keeps exactly the
records of the view whose date in the chosen basis column parses to a
calendar date lying in that year; records whose date in the chosen basis is
missing (NULL or empty) or unparseable are excluded. -/
theorem c7_year_filter_exact (data : List Row) (mode : String) (y : Nat) (r : Row) :
    r ∈ applyYearFilter mode y data ↔
      r ∈ data ∧
        ∃ s m d, (if mode == "Start Year" then r.start_date else r.due_date) = some s ∧
          parseIsoDate s = some (y, m, d) := by
  unfold applyYearFilter
  rw [List.mem_filter]
  refine and_congr_right fun _ => ?_
  rw [yearColOf_eq]
  cases hb : (if mode == "Start Year" then r.start_date else r.due_date) with
  | none => simp [toDatetimeCell]
  | some s =>
    cases hp : parseIsoDate s with
    | none => simp [toDatetimeCell, hp]
    | some t =>
      obtain ⟨y1, m1, d1⟩ := t
      constructor
      · intro h
        have hy : y1 = y := by simpa [toDatetimeCell, hp] using h
        exact ⟨s, m1, d1, rfl, by rw [hp, hy]⟩
      · rintro ⟨s2, m2, d2, hs2, hp2⟩
        obtain rfl : s = s2 := Option.some.inj hs2
        rw [hp] at hp2
        obtain ⟨h1, h2, h3⟩ : y1 = y ∧ m1 = m2 ∧ d1 = d2 := by simpa using hp2
        simp [toDatetimeCell, hp, h1]

/-! ## C8: roadmap rows -/

theorem ganttTuple_eq (r : Row) :
    ganttTuple r = if hasBothDates r then some (ganttTupleTotal r) else none := by
  unfold ganttTuple hasBothDates ganttTupleTotal
  cases hs : toDatetimeCell r.start_date <;> cases he : toDatetimeCell r.due_date <;> simp

/-- C8, amended part.  The roadmap view consists exactly of the records of
the input view whose start_date and due_date both parse to valid dates, each
exposed as the tuple (label = name, start, end, category = pillar), in the
order of the input view (which fetch_df sorts by coalesced start_date,
due_date, created_at) - the rows are NOT re-ordered by name. -/
theorem c8_gantt_rows (data : List Row) :
    gantt data = (data.filter hasBothDates).map ganttTupleTotal := by
  induction data with
  | nil => rfl
  | cons r rs ih =>
    unfold gantt at ih ⊢
    rw [List.filterMap_cons, List.filter_cons, ganttTuple_eq]
    by_cases h : hasBothDates r = true
    · rw [if_pos h, if_pos h, List.map_cons, ih]
    · rw [if_neg h, if_neg (by simpa using h), ih]

/-- A third sample row, named before rowWithDates alphabetically but dated
after it. -/
def rowAlphaLate : Row :=
  { id := 3, name := "Aurora", pillar := "Smart Operations", priority := some 2,
    description := none, owner := some "Ann", status := some "Planned",
    start_date := some "2024-05-01", due_date := some "2024-06-01",
    plainsware_project := some "No", plainsware_number := none,
    created_at := some "2024-01-03 00:00:00", updated_at := some "2024-01-03 00:00:00" }

/-- C8, counterexample.  On a filtered view of two dated records the roadmap
rows come out in the view's date order (Beta before Aurora), which is not
ordered by name, contradicting the claim's ordering requirement. -/
theorem c8_counterexample :
    (gantt (fetch_df [rowAlphaLate, rowWithDates] allFilters)).map (fun t => t.1) =
        ["Beta", "Aurora"] ∧
      ¬ List.Pairwise strLe
        ((gantt (fetch_df [rowAlphaLate, rowWithDates] allFilters)).map (fun t => t.1)) := by
  constructor
  · rfl
  · decide

/-! ## C9: status_to_state and the KPI partition -/

theorem kpi_partition (data : List Row) :
    completedCount data + ongoingCount data = data.length := by
  unfold completedCount ongoingCount
  induction data with
  | nil => rfl
  | cons r rs ih =>
    rw [List.filter_cons, List.filter_cons]
    by_cases h : (status_to_state r.status == "Completed") = true
    · rw [if_pos h, if_neg (by simp [bne, h])]
      simp only [List.length_cons]
      omega
    · have h2 : (status_to_state r.status == "Completed") = false := by
        cases hc : (status_to_state r.status == "Completed") with
        | false => rfl
        | true => exact absurd hc h
      rw [if_neg h, if_pos (by simp [bne, h2])]
      simp only [List.length_cons]
      omega

/-- C9.  The derived completion state is total and two-valued: every status
cell (including NULL) maps to Completed or to Ongoing, it maps to Completed
exactly when the stripped lower-cased status text is done, complete, or
completed, and therefore the Completed and Ongoing KPI counts always sum to
the total record count of the view. -/
theorem c9_status_partition (x : Option String) (data : List Row) :
    (status_to_state x = "Completed" ∨ status_to_state x = "Ongoing") ∧
      (status_to_state x = "Completed" ↔
        ["done", "complete", "completed"].contains (lowerStr (pyStrip (pyStrCell x))) = true) ∧
      completedCount data + ongoingCount data = data.length := by
  refine ⟨?_, ?_, kpi_partition data⟩
  · unfold status_to_state
    by_cases h : (["done", "complete", "completed"].contains
        (lowerStr (pyStrip (pyStrCell x)))) = true
    · rw [if_pos h]; exact Or.inl rfl
    · rw [if_neg h]; exact Or.inr rfl
  · unfold status_to_state
    by_cases h : (["done", "complete", "completed"].contains
        (lowerStr (pyStrip (pyStrCell x)))) = true
    · rw [if_pos h]; simpa using h
    · rw [if_neg h]
      constructor
      · intro he; exact absurd he (by decide)
      · intro hc; exact absurd hc h

/-! ## C5: top N per pillar -/

theorem optIntLtB_trans (x y z : Option Int) (h1 : optIntLtB x y = true)
    (h2 : optIntLtB y z = true) : optIntLtB x z = true := by
  cases x <;> cases y <;> cases z <;> simp [optIntLtB] at * <;> omega

theorem optIntLtB_connex (x y : Option Int) (h1 : optIntLtB x y = false)
    (h2 : optIntLtB y x = false) : x = y := by
  cases x <;> cases y <;> simp [optIntLtB] at * <;> omega

theorem topLeB_iff (a b : Row) :
    topLeB a b = true ↔
      strLtB a.pillar b.pillar = true ∨
        (a.pillar = b.pillar ∧
          (optIntLtB a.priority b.priority = true ∨
            (a.priority = b.priority ∧ strLeB a.name b.name = true))) := by
  unfold topLeB prioNameLeB
  simp [Bool.or_eq_true, Bool.and_eq_true, beq_iff_eq]

theorem topLe_total (a b : Row) : topLe a b ∨ topLe b a := by
  unfold topLe
  rw [topLeB_iff, topLeB_iff]
  cases hp : strLtB a.pillar b.pillar with
  | true => exact Or.inl (Or.inl rfl)
  | false =>
    cases hp2 : strLtB b.pillar a.pillar with
    | true => exact Or.inr (Or.inl rfl)
    | false =>
      have he : a.pillar = b.pillar := strLtB_connex _ _ hp hp2
      cases hq : optIntLtB a.priority b.priority with
      | true => exact Or.inl (Or.inr ⟨he, Or.inl rfl⟩)
      | false =>
        cases hq2 : optIntLtB b.priority a.priority with
        | true => exact Or.inr (Or.inr ⟨he.symm, Or.inl rfl⟩)
        | false =>
          have heq : a.priority = b.priority := optIntLtB_connex _ _ hq hq2
          rcases strLeB_total a.name b.name with h | h
          · exact Or.inl (Or.inr ⟨he, Or.inr ⟨heq, h⟩⟩)
          · exact Or.inr (Or.inr ⟨he.symm, Or.inr ⟨heq.symm, h⟩⟩)

theorem topLe_trans (a b c : Row) (h1 : topLe a b) (h2 : topLe b c) : topLe a c := by
  unfold topLe at *
  rw [topLeB_iff] at h1 h2 ⊢
  rcases h1 with h1 | ⟨e1, h1⟩
  · rcases h2 with h2 | ⟨e2, h2⟩
    · exact Or.inl (strLtB_trans _ _ _ h1 h2)
    · exact Or.inl (by rw [← e2]; exact h1)
  · rcases h2 with h2 | ⟨e2, h2⟩
    · exact Or.inl (by rw [e1]; exact h2)
    · refine Or.inr ⟨e1.trans e2, ?_⟩
      rcases h1 with h1 | ⟨f1, h1⟩
      · rcases h2 with h2 | ⟨f2, h2⟩
        · exact Or.inl (optIntLtB_trans _ _ _ h1 h2)
        · exact Or.inl (by rw [← f2]; exact h1)
      · rcases h2 with h2 | ⟨f2, h2⟩
        · exact Or.inl (by rw [f1]; exact h2)
        · exact Or.inr ⟨f1.trans f2, strLeB_trans _ _ _ h1 h2⟩

theorem groupHead_sublist (n : Nat) (rs : List Row) :
    ∀ seen : List (String × Nat), List.Sublist (groupHead n seen rs) rs := by
  induction rs with
  | nil => intro seen; simp [groupHead]
  | cons r rs ih =>
    intro seen
    unfold groupHead
    by_cases h : countIn seen r.pillar < n
    · rw [if_pos h]
      exact (ih _).cons₂ r
    · rw [if_neg h]
      exact (ih _).cons r

theorem countIn_bumpCount_self (m : List (String × Nat)) (k : String) :
    countIn (bumpCount m k) k = countIn m k + 1 := by
  induction m with
  | nil => simp [bumpCount, countIn]
  | cons p rest ih =>
    obtain ⟨k2, c⟩ := p
    by_cases h : (k2 == k) = true
    · simp [bumpCount, countIn, h]
    · simp only [bumpCount, countIn, h, if_neg, Bool.not_eq_true] at *
      simp [h, ih]

theorem countIn_bumpCount_ne (m : List (String × Nat)) (k p : String) (h : k ≠ p) :
    countIn (bumpCount m k) p = countIn m p := by
  induction m with
  | nil =>
    have hkp : (k == p) = false := by
      cases hc : (k == p) with
      | false => rfl
      | true => exact absurd (beq_iff_eq.mp hc) h
    simp [bumpCount, countIn, hkp]
  | cons q rest ih =>
    obtain ⟨k2, c⟩ := q
    by_cases h2 : (k2 == k) = true
    · have : (k2 == p) = false := by
        cases hc : (k2 == p) with
        | false => rfl
        | true => exact absurd (beq_iff_eq.mp h2 ▸ beq_iff_eq.mp hc) h
      simp [bumpCount, countIn, h2, this]
    · by_cases h3 : (k2 == p) = true
      · simp [bumpCount, countIn, h2, h3]
      · simp [bumpCount, countIn, h2, h3, ih]

theorem groupHead_count_le (n : Nat) (p : String) (rs : List Row) :
    ∀ seen : List (String × Nat),
      ((groupHead n seen rs).filter (fun r => r.pillar == p)).length ≤
        n - countIn seen p := by
  induction rs with
  | nil => intro seen; simp [groupHead]
  | cons r rs ih =>
    intro seen
    unfold groupHead
    by_cases hc : countIn seen r.pillar < n
    · rw [if_pos hc, List.filter_cons]
      by_cases hp : (r.pillar == p) = true
      · have hpe : r.pillar = p := beq_iff_eq.mp hp
        rw [if_pos hp, List.length_cons]
        have hrec := ih (bumpCount seen r.pillar)
        have hcnt : countIn (bumpCount seen r.pillar) p = countIn seen p + 1 := by
          rw [hpe, countIn_bumpCount_self]
        rw [hcnt] at hrec
        have hc2 : countIn seen p < n := by rw [← hpe]; exact hc
        omega
      · rw [if_neg hp]
        have hrec := ih (bumpCount seen r.pillar)
        by_cases hne : r.pillar = p
        · exact absurd (beq_iff_eq.mpr hne) hp
        · rw [countIn_bumpCount_ne seen r.pillar p hne] at hrec
          exact hrec
    · rw [if_neg hc]
      exact ih seen

/-- C5.  For every view and every n at least 1, the top-N block returns at
most n rows per pillar value, and within each pillar group the returned rows
are ordered ascending by priority (NaN priorities last) with ties broken by
name ascending. -/
theorem c5_top_n_per_pillar (data : List Row) (n : Nat) (hn : 1 ≤ n) :
    (∀ p : String, ((top_df data n).filter (fun r => r.pillar == p)).length ≤ n) ∧
      List.Pairwise (fun a b => a.pillar = b.pillar → prioNameLeB a b = true)
        (top_df data n) := by
  constructor
  · intro p
    have h := groupHead_count_le n p (List.insertionSort topLe (data.map replUnspec)) []
    unfold top_df
    calc ((groupHead n [] (List.insertionSort topLe (data.map replUnspec))).filter
            (fun r => r.pillar == p)).length ≤ n - countIn [] p := h
      _ ≤ n := Nat.sub_le n _
  · haveI : IsTotal Row topLe := ⟨topLe_total⟩
    haveI : IsTrans Row topLe := ⟨topLe_trans⟩
    have hs : List.Pairwise topLe (List.insertionSort topLe (data.map replUnspec)) :=
      List.sorted_insertionSort topLe _
    have hsub := groupHead_sublist n (List.insertionSort topLe (data.map replUnspec)) []
    refine List.Pairwise.imp ?_ (hs.sublist hsub)
    intro a b hab hpe
    rcases (topLeB_iff a b).mp hab with h | ⟨he, h⟩
    · rw [hpe, strLtB_irrefl] at h
      exact absurd h (by simp)
    · unfold prioNameLeB
      rcases h with h | ⟨hq, h⟩
      · simp [h]
      · simp [hq, h]

/-- Witness for C5 at a concrete input: two same-pillar rows, n = 1. -/
theorem c5_top_n_per_pillar_witness :
    1 ≤ 1 ∧
      ((∀ p : String,
          ((top_df [rowNoDates, rowWithDates] 1).filter (fun r => r.pillar == p)).length ≤ 1) ∧
        List.Pairwise (fun a b => a.pillar = b.pillar → prioNameLeB a b = true)
          (top_df [rowNoDates, rowWithDates] 1)) :=
  ⟨Nat.le_refl 1, c5_top_n_per_pillar [rowNoDates, rowWithDates] 1 (Nat.le_refl 1)⟩

/-! ## C10: unparseable priority filter values are dropped -/

theorem rowMatches_priority_fallback (f : Filters) (r : Row)
    (h1 : f.priority ≠ ALL_LABEL) (h2 : pyIntOpt f.priority = none) :
    rowMatches f r = rowMatches { f with priority := ALL_LABEL } r := by
  unfold rowMatches
  dsimp only
  congr 1
  congr 1
  by_cases he : f.priority = ""
  · rw [if_neg (fun hcon => hcon.1 he), if_neg (by simp)]
  · rw [if_pos ⟨he, h1⟩, h2, if_neg (by simp)]

/-- C10.  When the priority filter value is neither the sentinel All nor
parseable as an integer, fetch_df silently drops the priority predicate: it
raises nothing, filters nothing by priority, and returns exactly what the
same filter set with priority = All returns. -/
theorem c10_priority_filter_dropped (db : List Row) (f : Filters)
    (h1 : f.priority ≠ ALL_LABEL) (h2 : pyIntOpt f.priority = none) :
    fetch_df db f = fetch_df db { f with priority := ALL_LABEL } := by
  unfold fetch_df
  rw [List.filter_congr (fun r _ => rowMatches_priority_fallback f r h1 h2)]

/-- The all-pass filter set with an unparseable priority value. -/
def badPriorityFilters : Filters :=
  { pillar := ALL_LABEL, status := ALL_LABEL, owner := ALL_LABEL,
    priority := "abc", plainsware := ALL_LABEL, search := "" }

/-- Witness for C10 at a concrete input. -/
theorem c10_priority_filter_dropped_witness :
    badPriorityFilters.priority ≠ ALL_LABEL ∧ pyIntOpt badPriorityFilters.priority = none ∧
      fetch_df [rowNoDates, rowWithDates] badPriorityFilters =
        fetch_df [rowNoDates, rowWithDates] { badPriorityFilters with priority := ALL_LABEL } :=
  ⟨by decide, by decide,
   c10_priority_filter_dropped [rowNoDates, rowWithDates] badPriorityFilters
     (by decide) (by decide)⟩

end Portfolio
